import Mathlib

/-!
Verification development for the telephone-sales quality-check pipeline
(`src/quality_check/core.py` and `src/utils/batch_processor.py`).

The Python code is shallowly embedded: Python dicts with string keys and
string values (the declared type of every record in the source is
`Dict[str, str]`) become association lists `List (String × String)` whose
entry order models dict insertion order; exceptions become `Except PyExn`;
the external collaborators (the OpenAI completion call `chat_with_retry`,
the standard-library `json.loads`, and the checker-name resolver
`extract_checker_name` from the missing `src/quality_check/prompts.py`)
are parameters of a `CheckEnv` record, one outcome per call site.
Streamlit UI calls (`st.markdown`, progress bars, metric cards) are pure
display and are omitted, as are the Google-Sheets client internals: a
store write is modelled as appending the flushed batch to a history list,
and the post-flush `time.sleep` as a counter of pause events.
-/

/-- Python whitespace test for the character range exercised here
(`str.strip` / regex `\s` on ASCII whitespace; the transcripts and
patterns in this repository contain no exotic Unicode space). -/
def isPySpace (c : Char) : Bool :=
  c = ' ' || c = '\t' || c = '\n' || c = '\r' || c = '\x0b' || c = '\x0c'

/-- Truth value of Python `not s or not s.strip()`: the string is empty or
consists only of whitespace. -/
def isBlank (s : String) : Bool :=
  s.toList.all isPySpace

/-- Character-list test that `pat` is a prefix of `text`. -/
def startsWithChars : List Char → List Char → Bool
  | [], _ => true
  | _ :: _, [] => false
  | p :: ps, c :: cs => p == c && startsWithChars ps cs

/-- Occurrence test of a literal pattern anywhere in the text, modelling
`re.search` for the literal (metacharacter-free) patterns used by
`_detect_gachakiri`. -/
def hasSubChars (pat : List Char) : List Char → Bool
  | [] => startsWithChars pat []
  | c :: rest => startsWithChars pat (c :: rest) || hasSubChars pat rest

/-- String-level wrapper: does `text` contain `pat` as a substring. -/
def containsSub (text pat : String) : Bool :=
  hasSubChars pat.toList text.toList

/-- Python exception classes relevant to this code: the built-in
`Exception` and `AttributeError`, and the classes declared in
`src/common/error_handler.py` (of which `ProcessingError` and `APIError`
matter to the claims). -/
inductive PyExnClass
  | exceptionCls
  | attributeErrorCls
  | processingErrorCls
  | apiErrorCls
  | otherCls (clsName : String)
deriving DecidableEq, Repr

/-- Python exception: a class together with its message (`str(e)`). -/
structure PyExn where
  cls : PyExnClass
  msg : String
deriving DecidableEq, Repr

/-- Outcome of `json.loads` on the raw model response: a JSON object with
string values (the type the source declares, `Dict[str, str]`), a
successfully parsed value that is not an object (list, number, string,
…), or a `json.JSONDecodeError` carrying its message. -/
inductive JsonOutcome
  | obj (fields : List (String × String))
  | nonObj
  | decodeErr (emsg : String)

/-- Environment of one `QualityChecker.check` call: the outcome of each
external call it makes.

`nameResult` — Modelled from the spec: `extract_checker_name`
(`src/quality_check/prompts.py`, absent from `src/`) resolves which
roster member is speaking via a secondary inference call; per spec §4.2
any completion-port error is swallowed and yields the empty string, so
the outcome is a total `String`.

`apiResult` — outcome of `chat_with_retry` (`src/api/openai_client.py`,
absent from `src/`): either the returned response text or the exception
it raises after exhausting retries.

`parse` — behaviour of `json.loads` on a given response string. -/
structure CheckEnv where
  nameResult : String
  apiResult : Except PyExn String
  parse : String → JsonOutcome

/-- Record produced for one call: a Python dict `Dict[str, str]` as an
insertion-ordered association list. -/
abbrev QualityRecord := List (String × String)

namespace QualityChecker

/-- Transcription of `QualityChecker.SPREADSHEET_HEADERS`
(`src/quality_check/core.py`): the fixed, ordered header list. -/
def SPREADSHEET_HEADERS : List String :=
  ["テレアポ担当者名", "報告まとめ",
   "ガチャ切りされた△",
   "社名や担当者名を名乗らない", "アプローチで販売店名、ソフト名の先出し", "同業他社の悪口等",
   "運転中や電車内でも無理やり続ける", "2回断られても食い下がる", "暴言・悪口・脅迫・逆上",
   "情報漏洩", "共犯（教唆・幇助）", "通話対応（無言電話／ガチャ切り）", "呼び方", "ロングコール",
   "当社の電話お断り", "しつこい・何度も電話がある", "お客様専用電話番号と言われる", "口調を注意された",
   "怒らせた", "暴言を受けた", "通報する", "営業お断り",
   "事務員に対して代表者のことを「社長」「オーナー」「代表」", "一人称が「僕」「自分」「俺」",
   "「弊社」のことを「うち」「僕ら」と言う", "謝罪が「すみません」「ごめんなさい」",
   "口調や態度が失礼", "会話が成り立っていない", "残債の「下取り」「買い取り」トーク",
   "嘘・真偽不明", "その他問題"]

/-- Dict comprehension `\x7bheader: "" for header in SPREADSHEET_HEADERS\x7d`:
every header present, every value the empty string. -/
def initRecord : QualityRecord :=
  SPREADSHEET_HEADERS.map (fun h => (h, ""))

/-- Python dict assignment to a key known to be present: the entry keeps
its position and gets the new value. -/
def setInPlace (r : QualityRecord) (k v : String) : QualityRecord :=
  r.map (fun p => if p.1 == k then (p.1, v) else p)

/-- Python dict assignment `d[k] = v`: update in place when the key is
present, append a new entry otherwise (dict insertion order). -/
def dictSet (r : QualityRecord) (k v : String) : QualityRecord :=
  if r.any (fun p => p.1 == k) then setInPlace r k v else r ++ [(k, v)]

/-- Loop `for key, value in parsed_result.items(): if key in final_result:
final_result[key] = value` from `_format_for_spreadsheet`: project the
parsed response onto the fixed header set, dropping unknown keys. -/
def copyParsed (init : QualityRecord) (parsed : List (String × String)) : QualityRecord :=
  parsed.foldl (fun acc kv =>
    if acc.any (fun p => p.1 == kv.1) then setInPlace acc kv.1 kv.2 else acc) init

/-- Keys excluded from the summary body by `_create_summary_report`
(`p not in [...]` in the source). -/
def summaryExcludedKeys : List String :=
  ["報告まとめ", "テレアポ担当者名", "ガチャ切りされた△"]

/-- Transcription of `QualityChecker._create_summary_report`: keys whose
value is 問題あり, minus the summary, agent-name and hung-up keys, first
five joined by comma; fixed text when none. -/
def create_summary_report (result : QualityRecord) : String :=
  let problems := (result.filter (fun p => p.2 == "問題あり")).map Prod.fst
  if !problems.isEmpty then
    let problem_items := problems.filter (fun p => !(summaryExcludedKeys.contains p))
    if !problem_items.isEmpty then
      "問題あり項目: " ++ String.intercalate ", " (problem_items.take 5)
    else
      "特に問題は検出されませんでした"
  else
    "特に問題は検出されませんでした"

/-- Abrupt-termination patterns of `_detect_gachakiri`; each source
pattern is a literal string (no regex metacharacters). -/
def gachakiriPatterns : List String :=
  ["ガチャ切り", "電話を切られ", "一方的に切", "途中で切",
   "会話が途中で終了", "通話が切断", "突然終了", "無言で切"]

/-- Normal-closing patterns of `_detect_gachakiri`; the source pattern
`失礼[しい]たします` is a two-character class and is expanded into its two
literal alternatives, the other two patterns are literals. -/
def normalEndPatterns : List String :=
  ["失礼したします", "失礼いたします", "ありがとうございました", "お時間をいただき"]

/-- Any normal-closing pattern occurs in the text. -/
def matchesNormalEnd (text : String) : Bool :=
  normalEndPatterns.any (fun p => containsSub text p)

/-- Any abrupt-termination pattern occurs in the text. -/
def matchesGachakiri (text : String) : Bool :=
  gachakiriPatterns.any (fun p => containsSub text p)

/-- Transcription of `QualityChecker._detect_gachakiri`: a normal-closing
match forces `false`; otherwise the abrupt patterns decide. -/
def detect_gachakiri (text : String) : Bool :=
  if matchesNormalEnd text then false
  else matchesGachakiri text

/-- Stage of `_format_for_spreadsheet` after the projection loop. -/
def afterCopy (parsed : List (String × String)) : QualityRecord :=
  copyParsed initRecord parsed

/-- Stage after `if checker_name: final_result["テレアポ担当者名"] =
checker_name` (a nonempty string is truthy). -/
def afterChecker (parsed : List (String × String)) (checkerName : String) : QualityRecord :=
  if checkerName ≠ "" then dictSet (afterCopy parsed) "テレアポ担当者名" checkerName
  else afterCopy parsed

/-- Stage after `final_result["報告まとめ"] =
self._create_summary_report(final_result)`, i.e. just before the
hung-up-flag heuristic step. -/
def beforeGachakiri (parsed : List (String × String)) (checkerName : String) : QualityRecord :=
  dictSet (afterChecker parsed checkerName) "報告まとめ"
    (create_summary_report (afterChecker parsed checkerName))

/-- Transcription of `QualityChecker._format_for_spreadsheet`: projection
onto the fixed headers, agent-name overwrite, summary computation, then
the hung-up-flag heuristic. -/
def format_for_spreadsheet (parsed : List (String × String)) (originalText : String)
    (checkerName : String) : QualityRecord :=
  if detect_gachakiri originalText then
    dictSet (beforeGachakiri parsed checkerName) "ガチャ切りされた△" "問題あり"
  else
    beforeGachakiri parsed checkerName

/-- Transcription of `QualityChecker._create_error_fallback`, at the
level of the dict that the source serialises with `json.dumps`. -/
def create_error_fallback (errorMessage : String) : QualityRecord :=
  dictSet (dictSet initRecord "テレアポ担当者名" "処理エラー")
    "報告まとめ" ("処理エラー: " ++ errorMessage)

/-- Transcription of `QualityChecker.check`. Empty or whitespace-only
input returns `None` before any external call; otherwise the checker
name is resolved when a roster is given, the completion is invoked, an
empty response or the failure marker raises `Exception`, a JSON decode
failure raises `Exception` carrying the raw response, a parsed non-object
raises `AttributeError` when `_format_for_spreadsheet` calls `.items()`,
and a parsed object is formatted into the final record. The source's
`except` clause re-raises the same exception, so errors propagate
unchanged. -/
def check (env : CheckEnv) (textInput : String) (checkers : List String) :
    Except PyExn (Option QualityRecord) :=
  if isBlank textInput then Except.ok none
  else
    let checkerName := if checkers.isEmpty then "" else env.nameResult
    match env.apiResult with
    | Except.error e => Except.error e
    | Except.ok rawResponse =>
      if rawResponse = "" || rawResponse = "チェック失敗" then
        Except.error ⟨PyExnClass.exceptionCls, "AIからの応答が空か、失敗しました。"⟩
      else
        match env.parse rawResponse with
        | JsonOutcome.decodeErr m =>
          Except.error ⟨PyExnClass.exceptionCls,
            "JSON解析エラー: " ++ m ++ "。応答: " ++ rawResponse⟩
        | JsonOutcome.nonObj =>
          Except.error ⟨PyExnClass.attributeErrorCls,
            "オブジェクトに items 属性がありません"⟩
        | JsonOutcome.obj parsed =>
          Except.ok (some (format_for_spreadsheet parsed textInput checkerName))

/-- Transcription of `QualityChecker.run_check`, at the level of the dict
serialised into the returned JSON string. Empty input and every
exception from the pipeline yield the error fallback; the unreachable
`check = ok none` path (the source would serialise `None` to `null`)
is rendered as the empty record. -/
def run_check (env : CheckEnv) (textInput : String) (checkers : List String) : QualityRecord :=
  if isBlank textInput then create_error_fallback "入力テキストが空です。"
  else
    match check env textInput checkers with
    | Except.ok (some r) => r
    | Except.ok none => []
    | Except.error e => create_error_fallback e.msg

end QualityChecker

namespace Batch

open QualityChecker

/-- Character list of the literal role tag `[テレアポ担当者]`. -/
def tagStaff : List Char := "[テレアポ担当者]".toList

/-- Character list of the literal role tag `[顧客]`. -/
def tagCustomer : List Char := "[顧客]".toList

/-- Single-position match of the pattern
`\[(?:テレアポ担当者|顧客)\]\s*\S+` from `_is_conversation_too_short`: a
role tag, then greedily skipped whitespace, then at least one
non-whitespace character; returns the remainder after the maximal
non-whitespace run (the end of the regex match), or `none` when the
pattern does not match at this position. -/
def matchTurnAt (cs : List Char) : Option (List Char) :=
  let afterTag : Option (List Char) :=
    if startsWithChars tagStaff cs then some (cs.drop tagStaff.length)
    else if startsWithChars tagCustomer cs then some (cs.drop tagCustomer.length)
    else none
  match afterTag with
  | none => none
  | some rest =>
    let rest2 := rest.dropWhile isPySpace
    if rest2.isEmpty then none
    else some (rest2.dropWhile (fun c => !isPySpace c))

/-- Left-to-right non-overlapping scan counting the matches of the turn
pattern, as `re.findall` does: on a match, continue after it; otherwise
advance one character. Each match consumes at least one character
(`matchTurnAt_length_lt` below), so fuel equal to the character count
suffices and the recursion is structural in the fuel. -/
def countTurnsAux : Nat → List Char → Nat
  | 0, _ => 0
  | _ + 1, [] => 0
  | fuel + 1, c :: rest =>
    match matchTurnAt (c :: rest) with
    | some remaining => 1 + countTurnsAux fuel remaining
    | none => countTurnsAux fuel rest

/-- Number of matches of the labeled-turn pattern in the transcript,
modelling `len(re.findall(..., raw_transcript))`. -/
def countTurns (s : String) : Nat :=
  countTurnsAux s.toList.length s.toList

/-- Transcription of `_is_conversation_too_short`: empty text is too
short, otherwise fewer than `minUtterances` labeled turns is. -/
def is_conversation_too_short (rawTranscript : String) (minUtterances : Nat := 3) : Bool :=
  if rawTranscript = "" then true
  else countTurns rawTranscript < minUtterances

/-- Transcription of `_create_no_conversation_result`, at the level of
the dict serialised into the JSON string: all headers empty except the
summary, which is the fixed no-conversation text. -/
def no_conversation_result : QualityRecord :=
  dictSet initRecord "報告まとめ" "会話記録なし"

/-- Transcription of `_execute_quality_check`: the `safe_execute`
decorator turns every exception from `check` into `None`; a returned
dict is kept only when truthy (nonempty). -/
def execute_quality_check (env : CheckEnv) (rawTranscript : String)
    (checkers : List String) : Option QualityRecord :=
  match check env rawTranscript checkers with
  | Except.error _ => none
  | Except.ok none => none
  | Except.ok (some r) => if r.isEmpty then none else some r

/-- Mutable state of the `_process_batch` loop: the buffered
`(row_index, record)` pairs, the history of store writes (one list per
`_update_spreadsheet_batch` call, the external write modelled as
succeeding), the number of post-flush `time.sleep` pauses, and the two
counters. -/
structure BatchSt where
  resultsBatch : List (Nat × QualityRecord)
  flushed : List (List (Nat × QualityRecord))
  sleeps : Nat
  totalProcessed : Nat
  totalSuccess : Nat
deriving DecidableEq, Repr

/-- Initial state of a batch run. -/
def initSt : BatchSt := ⟨[], [], 0, 0, 0⟩

/-- Body of one `_process_batch` loop iteration for the row
`(rowIndex, row)`. `row[0] if row else ""` is the transcript; an empty
transcript hits `continue` before anything else; the short-conversation
gate substitutes the fixed record, otherwise the quality check runs with
its per-row environment; a truthy result is buffered and counted as a
success; the buffer is flushed when it has reached `batchSize` entries
or this is the last row (`i == len(target_rows) - 1`, rendered here as
`isLast`), provided it is nonempty, and each flush sleeps once. The
Streamlit progress and metric updates have no state of interest. -/
def processRow (env : CheckEnv) (checkers : List String) (batchSize : Nat)
    (isLast : Bool) (s : BatchSt) (rowIndex : Nat) (row : List String) : BatchSt :=
  let rawTranscript := row.headD ""
  if rawTranscript = "" then s
  else
    let resultJson : Option QualityRecord :=
      if is_conversation_too_short rawTranscript then some no_conversation_result
      else execute_quality_check env rawTranscript checkers
    let s1 := match resultJson with
      | some r => { s with resultsBatch := s.resultsBatch ++ [(rowIndex, r)],
                           totalSuccess := s.totalSuccess + 1 }
      | none => s
    let s2 := { s1 with totalProcessed := s1.totalProcessed + 1 }
    if batchSize ≤ s2.resultsBatch.length || isLast then
      if s2.resultsBatch.isEmpty then s2
      else { s2 with flushed := s2.flushed ++ [s2.resultsBatch], resultsBatch := [],
                     sleeps := s2.sleeps + 1 }
    else s2

/-- Iteration of `processRow` over the remaining rows; `i` is the
enumeration index, and `rest.isEmpty` holds exactly when
`i == len(target_rows) - 1` does in the source loop. `envs i` is the
external-call environment of the `i`-th row's check. -/
def processRows (envs : Nat → CheckEnv) (checkers : List String) (batchSize : Nat) :
    Nat → List (Nat × List String) → BatchSt → BatchSt
  | _, [], s => s
  | i, r :: rest, s =>
    processRows envs checkers batchSize (i + 1) rest
      (processRow (envs i) checkers batchSize rest.isEmpty s r.1 r.2)

/-- Transcription of `_process_batch` over the whole target-row list. -/
def process_batch (envs : Nat → CheckEnv) (checkers : List String) (batchSize : Nat)
    (targetRows : List (Nat × List String)) : BatchSt :=
  processRows envs checkers batchSize 0 targetRows initSt

/-- Record that one row contributes to the buffer, if any: `none` for an
empty transcript (skipped row) and for a failed or empty check, the
no-conversation substitute for a too-short transcript, the check result
otherwise. -/
def rowRecord (env : CheckEnv) (checkers : List String) (row : List String) :
    Option QualityRecord :=
  let rawTranscript := row.headD ""
  if rawTranscript = "" then none
  else if is_conversation_too_short rawTranscript then some no_conversation_result
  else execute_quality_check env rawTranscript checkers

/-- Contribution of one row to the run, as a list. -/
def rowContribution (env : CheckEnv) (checkers : List String) (idx : Nat)
    (row : List String) : List (Nat × QualityRecord) :=
  match rowRecord env checkers row with
  | some rec => [(idx, rec)]
  | none => []

/-- Sequence of `(row_index, record)` pairs a run is expected to emit,
row by row, starting at enumeration index `i`. -/
def expectedRecords (envs : Nat → CheckEnv) (checkers : List String) :
    Nat → List (Nat × List String) → List (Nat × QualityRecord)
  | _, [] => []
  | i, r :: rest =>
    rowContribution (envs i) checkers r.1 r.2 ++ expectedRecords envs checkers (i + 1) rest

/-- Concatenation of all store writes of a run, in order. -/
def writtenRecords (s : BatchSt) : List (Nat × QualityRecord) :=
  s.flushed.foldr (fun b acc => b ++ acc) []

/-- Everything a state holds, written or still buffered: the store writes
so far followed by the current buffer. -/
def pendingAll (s : BatchSt) : List (Nat × QualityRecord) :=
  writtenRecords s ++ s.resultsBatch

end Batch

/-- Definition following the spec's words for the summary field
(refinement target for C5): collect the header keys — excluding the
summary field itself, the agent-name field and the hung-up flag — whose
verdict in the record equals 問題あり, in header-definition order; if any,
the marker followed by the first five joined by comma, else the fixed
no-issues text. -/
def summarySpec (r : QualityRecord) : String :=
  let issueKeys := QualityChecker.SPREADSHEET_HEADERS.filter (fun h =>
    !(QualityChecker.summaryExcludedKeys.contains h) &&
    (List.lookup h r == some "問題あり"))
  if issueKeys.isEmpty then "特に問題は検出されませんでした"
  else "問題あり項目: " ++ String.intercalate ", " (issueKeys.take 5)

/-- Environment whose completion call fails with an APIError, for
concrete evaluations. -/
def envApiFail : CheckEnv :=
  ⟨"", Except.error ⟨PyExnClass.apiErrorCls, "接続エラー"⟩, fun _ => JsonOutcome.nonObj⟩

/-- Environment whose completion call returns the empty response, for
concrete evaluations. -/
def envEmptyResponse : CheckEnv :=
  ⟨"", Except.ok "", fun _ => JsonOutcome.nonObj⟩

/-- Transcript with three labeled customer turns, long enough to pass the
short-conversation gate, for concrete evaluations. -/
def threeTurnTranscript : String :=
  "[顧客] はい\n[顧客] いいえ\n[顧客] もしもし"

/-- Environment whose completion call returns text that is not valid
JSON, for concrete evaluations. -/
def envDecodeErr : CheckEnv :=
  ⟨"", Except.ok "応答テキスト", fun _ => JsonOutcome.decodeErr "Expecting value"⟩



open QualityChecker Batch

theorem map_fst_setInPlace (r : QualityRecord) (k v : String) :
    (setInPlace r k v).map Prod.fst = r.map Prod.fst := by
  unfold setInPlace
  rw [List.map_map]
  apply List.map_congr_left
  intro p _
  by_cases h : p.1 = k <;> simp [h]

theorem lookup_setInPlace_ne (r : QualityRecord) (k v k' : String) (h : k' ≠ k) :
    List.lookup k' (setInPlace r k v) = List.lookup k' r := by
  induction r with
  | nil => rfl
  | cons a t ih =>
    obtain ⟨a1, a2⟩ := a
    by_cases hk : a1 = k
    · have hb : (k' == k) = false := by simp [h]
      simp [setInPlace, hk, hb, List.lookup_cons] at ih ⊢
      exact ih
    · by_cases hq : k' = a1
      · have hb : (k' == a1) = true := by simp [hq]
        simp [setInPlace, hk, hb, List.lookup_cons]
      · have hb : (k' == a1) = false := by simp [hq]
        simp [setInPlace, hk, hb, List.lookup_cons] at ih ⊢
        exact ih

theorem lookup_setInPlace_self (r : QualityRecord) (k v : String)
    (h : r.any (fun p => p.1 == k) = true) :
    List.lookup k (setInPlace r k v) = some v := by
  induction r with
  | nil => simp at h
  | cons a t ih =>
    obtain ⟨a1, a2⟩ := a
    by_cases hk : a1 = k
    · have hb : (k == a1) = true := by simp [hk]
      simp [setInPlace, hk, hb, List.lookup_cons]
    · have hb : (k == a1) = false := by simp [Ne.symm hk]
      have ht : t.any (fun p => p.1 == k) = true := by
        have hb2 : (a1 == k) = false := by simp [hk]
        simp only [List.any_cons, hb2, Bool.false_or] at h
        exact h
      have ih2 := ih ht
      simp [setInPlace, hk, hb, List.lookup_cons] at ih2 ⊢
      exact ih2

theorem any_fst_eq_mem (r : QualityRecord) (k : String) :
    r.any (fun p => p.1 == k) = true ↔ k ∈ r.map Prod.fst := by
  rw [List.any_eq_true]
  constructor
  · rintro ⟨p, hp, he⟩
    exact (beq_iff_eq.mp he) ▸ List.mem_map_of_mem Prod.fst hp
  · intro hm
    obtain ⟨p, hp, he⟩ := List.mem_map.mp hm
    exact ⟨p, hp, beq_iff_eq.mpr he⟩

theorem map_fst_dictSet_of_mem (r : QualityRecord) (k v : String)
    (h : k ∈ r.map Prod.fst) :
    (dictSet r k v).map Prod.fst = r.map Prod.fst := by
  unfold dictSet
  rw [if_pos ((any_fst_eq_mem r k).2 h)]
  exact map_fst_setInPlace r k v

theorem lookup_dictSet_self (r : QualityRecord) (k v : String)
    (h : k ∈ r.map Prod.fst) :
    List.lookup k (dictSet r k v) = some v := by
  unfold dictSet
  rw [if_pos ((any_fst_eq_mem r k).2 h)]
  exact lookup_setInPlace_self r k v ((any_fst_eq_mem r k).2 h)

theorem lookup_append_single (r : QualityRecord) (k v k' : String) (h : k' ≠ k) :
    List.lookup k' (r ++ [(k, v)]) = List.lookup k' r := by
  induction r with
  | nil =>
    have h2 : (k' == k) = false := by simp [h]
    simp [List.lookup_cons, h2]
  | cons a t ih =>
    obtain ⟨a1, a2⟩ := a
    simp only [List.cons_append, List.lookup_cons]
    cases hkk : k' == a1 <;> simp [hkk, ih]

theorem lookup_dictSet_ne (r : QualityRecord) (k v k' : String) (h : k' ≠ k) :
    List.lookup k' (dictSet r k v) = List.lookup k' r := by
  unfold dictSet
  split
  · exact lookup_setInPlace_ne r k v k' h
  · exact lookup_append_single r k v k' h

theorem map_fst_copyParsed (parsed : List (String × String)) :
    ∀ init : QualityRecord, (copyParsed init parsed).map Prod.fst = init.map Prod.fst := by
  induction parsed with
  | nil => intro init; rfl
  | cons kv t ih =>
    intro init
    show (copyParsed (if init.any (fun p => p.1 == kv.1) then setInPlace init kv.1 kv.2
      else init) t).map Prod.fst = init.map Prod.fst
    rw [ih]
    split
    · exact map_fst_setInPlace init kv.1 kv.2
    · rfl

theorem lookup_copyParsed_not_mem (parsed : List (String × String)) (k : String)
    (h : k ∉ parsed.map Prod.fst) :
    ∀ init : QualityRecord, List.lookup k (copyParsed init parsed) = List.lookup k init := by
  induction parsed with
  | nil => intro init; rfl
  | cons kv t ih =>
    intro init
    simp only [List.map_cons, List.mem_cons, not_or] at h
    show List.lookup k (copyParsed (if init.any (fun p => p.1 == kv.1) then
      setInPlace init kv.1 kv.2 else init) t) = List.lookup k init
    rw [ih h.2]
    split
    · exact lookup_setInPlace_ne init kv.1 kv.2 k h.1
    · rfl

theorem map_fst_initRecord : initRecord.map Prod.fst = SPREADSHEET_HEADERS := by
  unfold initRecord
  rw [List.map_map]
  have : (Prod.fst ∘ fun x : String => (x, "")) = id := rfl
  rw [this, List.map_id]

theorem lookup_map_blank (l : List String) (k : String) (h : k ∈ l) :
    List.lookup k (l.map (fun x => (x, ""))) = some "" := by
  induction l with
  | nil => simp at h
  | cons a t ih =>
    by_cases hk : k = a
    · have h2 : (k == a) = true := by simp [hk]
      simp [List.lookup_cons, h2]
    · have h2 : (k == a) = false := by simp [hk]
      have hm : k ∈ t := by
        cases h with
        | head => exact absurd rfl hk
        | tail _ hh => exact hh
      simp only [List.map_cons, List.lookup_cons, h2]
      exact ih hm

theorem lookup_initRecord (k : String) (h : k ∈ SPREADSHEET_HEADERS) :
    List.lookup k initRecord = some "" :=
  lookup_map_blank SPREADSHEET_HEADERS k h

theorem headers_nodup : SPREADSHEET_HEADERS.Nodup := by decide

theorem agent_mem_headers : "テレアポ担当者名" ∈ SPREADSHEET_HEADERS := by decide

theorem summary_mem_headers : "報告まとめ" ∈ SPREADSHEET_HEADERS := by decide

theorem flag_mem_headers : "ガチャ切りされた△" ∈ SPREADSHEET_HEADERS := by decide

theorem map_fst_afterCopy (parsed : List (String × String)) :
    (afterCopy parsed).map Prod.fst = SPREADSHEET_HEADERS := by
  unfold afterCopy
  rw [map_fst_copyParsed parsed initRecord]
  exact map_fst_initRecord

theorem map_fst_afterChecker (parsed : List (String × String)) (checkerName : String) :
    (afterChecker parsed checkerName).map Prod.fst = SPREADSHEET_HEADERS := by
  unfold afterChecker
  split
  · rw [map_fst_dictSet_of_mem]
    · exact map_fst_afterCopy parsed
    · rw [map_fst_afterCopy parsed]
      exact agent_mem_headers
  · exact map_fst_afterCopy parsed

theorem map_fst_beforeGachakiri (parsed : List (String × String)) (checkerName : String) :
    (beforeGachakiri parsed checkerName).map Prod.fst = SPREADSHEET_HEADERS := by
  unfold beforeGachakiri
  rw [map_fst_dictSet_of_mem]
  · exact map_fst_afterChecker parsed checkerName
  · rw [map_fst_afterChecker parsed checkerName]
    exact summary_mem_headers

theorem map_fst_format (parsed : List (String × String)) (originalText checkerName : String) :
    (format_for_spreadsheet parsed originalText checkerName).map Prod.fst
      = SPREADSHEET_HEADERS := by
  unfold format_for_spreadsheet
  split
  · rw [map_fst_dictSet_of_mem]
    · exact map_fst_beforeGachakiri parsed checkerName
    · rw [map_fst_beforeGachakiri parsed checkerName]
      exact flag_mem_headers
  · exact map_fst_beforeGachakiri parsed checkerName

theorem map_fst_error_fallback (errorMessage : String) :
    (create_error_fallback errorMessage).map Prod.fst = SPREADSHEET_HEADERS := by
  unfold create_error_fallback
  rw [map_fst_dictSet_of_mem, map_fst_dictSet_of_mem, map_fst_initRecord]
  · rw [map_fst_initRecord]; exact agent_mem_headers
  · rw [map_fst_dictSet_of_mem, map_fst_initRecord]
    · exact summary_mem_headers
    · rw [map_fst_initRecord]; exact agent_mem_headers

theorem map_fst_no_conversation : no_conversation_result.map Prod.fst = SPREADSHEET_HEADERS := by
  unfold no_conversation_result
  rw [map_fst_dictSet_of_mem, map_fst_initRecord]
  rw [map_fst_initRecord]
  exact summary_mem_headers

theorem check_ne_ok_none (env : CheckEnv) (textInput : String) (checkers : List String)
    (h : isBlank textInput = false) :
    check env textInput checkers ≠ Except.ok none := by
  intro hc
  unfold check at hc
  rw [h] at hc
  simp only [Bool.false_eq_true, if_false] at hc
  cases henv : env.apiResult with
  | error e =>
    rw [henv] at hc
    exact Except.noConfusion hc
  | ok raw =>
    rw [henv] at hc
    dsimp only at hc
    by_cases hr : (decide (raw = "") || decide (raw = "チェック失敗")) = true
    · rw [if_pos hr] at hc
      exact Except.noConfusion hc
    · rw [if_neg hr] at hc
      cases hp : env.parse raw <;> rw [hp] at hc <;> simp at hc

theorem startsWithChars_length_le : ∀ p t : List Char, startsWithChars p t = true →
    p.length ≤ t.length := by
  intro p
  induction p with
  | nil => intro t _; simp
  | cons a ps ih =>
    intro t h
    cases t with
    | nil => simp [startsWithChars] at h
    | cons c cs =>
      simp only [startsWithChars, Bool.and_eq_true] at h
      have := ih cs h.2
      simp only [List.length_cons]
      omega

theorem length_dropWhile_le (p : Char → Bool) (l : List Char) :
    (l.dropWhile p).length ≤ l.length := by
  induction l with
  | nil => simp
  | cons c cs ih =>
    rw [List.dropWhile_cons]
    split
    · simp only [List.length_cons]
      omega
    · simp

theorem dropWhile_head_false (p : Char → Bool) :
    ∀ (l : List Char) (c : Char) (t : List Char), l.dropWhile p = c :: t → p c = false := by
  intro l
  induction l with
  | nil => intro c t h; simp at h
  | cons a l2 ih =>
    intro c t h
    rw [List.dropWhile_cons] at h
    split at h
    · exact ih c t h
    · cases h
      next hpa => exact Bool.eq_false_iff.mpr hpa

theorem tagStaff_length : tagStaff.length = 9 := by decide

theorem tagCustomer_length : tagCustomer.length = 4 := by decide

theorem matchTurnAt_length_lt (cs r : List Char) (h : matchTurnAt cs = some r) :
    r.length < cs.length := by
  unfold matchTurnAt at h
  by_cases hA : startsWithChars tagStaff cs = true
  · have hlen : 9 ≤ cs.length := tagStaff_length ▸ startsWithChars_length_le tagStaff cs hA
    simp only [hA, if_true] at h
    set rest2 := (cs.drop tagStaff.length).dropWhile isPySpace with hr2
    by_cases he : rest2.isEmpty
    · simp [he] at h
    · simp only [he, Bool.false_eq_true, if_false, Option.some.injEq] at h
      cases hrr : rest2 with
      | nil => rw [hrr] at he; simp at he
      | cons c t =>
        have hq : (fun x => !isPySpace x) c = true := by
          have := dropWhile_head_false isPySpace (cs.drop tagStaff.length) c t (hr2 ▸ hrr)
          simp [this]
        have hrlen : r.length ≤ t.length := by
          rw [← h, hrr, List.dropWhile_cons, if_pos hq]
          exact length_dropWhile_le _ t
        have h1 : rest2.length ≤ (cs.drop tagStaff.length).length := by
          rw [hr2]; exact length_dropWhile_le _ _
        have h2 : (cs.drop tagStaff.length).length = cs.length - 9 := by
          rw [List.length_drop, tagStaff_length]
        have h3 : rest2.length = t.length + 1 := by rw [hrr]; simp
        omega
  · by_cases hB : startsWithChars tagCustomer cs = true
    · have hlen : 4 ≤ cs.length := tagCustomer_length ▸ startsWithChars_length_le tagCustomer cs hB
      simp only [hA, Bool.false_eq_true, if_false, hB, if_true] at h
      set rest2 := (cs.drop tagCustomer.length).dropWhile isPySpace with hr2
      by_cases he : rest2.isEmpty
      · simp [he] at h
      · simp only [he, Bool.false_eq_true, if_false, Option.some.injEq] at h
        cases hrr : rest2 with
        | nil => rw [hrr] at he; simp at he
        | cons c t =>
          have hq : (fun x => !isPySpace x) c = true := by
            have := dropWhile_head_false isPySpace (cs.drop tagCustomer.length) c t (hr2 ▸ hrr)
            simp [this]
          have hrlen : r.length ≤ t.length := by
            rw [← h, hrr, List.dropWhile_cons, if_pos hq]
            exact length_dropWhile_le _ t
          have h1 : rest2.length ≤ (cs.drop tagCustomer.length).length := by
            rw [hr2]; exact length_dropWhile_le _ _
          have h2 : (cs.drop tagCustomer.length).length = cs.length - 4 := by
            rw [List.length_drop, tagCustomer_length]
          have h3 : rest2.length = t.length + 1 := by rw [hrr]; simp
          omega
    · simp only [hA, hB, Bool.false_eq_true, if_false] at h
      exact absurd h (by simp)

theorem matchTurnAt_not_bracket (c : Char) (cs : List Char) (h : (c == '[') = false) :
    matchTurnAt (c :: cs) = none := by
  have hne : c ≠ '[' := by simpa using h
  have hb : ('[' == c) = false := by simp [Ne.symm hne]
  have h1 : startsWithChars tagStaff (c :: cs) = false := by
    show (('[' == c) && startsWithChars "テレアポ担当者]".toList cs) = false
    rw [hb]
    rfl
  have h2 : startsWithChars tagCustomer (c :: cs) = false := by
    show (('[' == c) && startsWithChars "顧客]".toList cs) = false
    rw [hb]
    rfl
  unfold matchTurnAt
  simp [h1, h2]

theorem countTurnsAux_all_space (fuel : Nat) :
    ∀ cs : List Char, (∀ c ∈ cs, isPySpace c = true) → countTurnsAux fuel cs = 0 := by
  induction fuel with
  | zero => intro cs _; rfl
  | succ n ih =>
    intro cs h
    cases cs with
    | nil => rfl
    | cons c rest =>
      have hsp : isPySpace c = true := h c (List.mem_cons_self c rest)
      have hcb : (c == '[') = false := by
        have hne : c ≠ '[' := by
          intro he
          rw [he] at hsp
          simp [isPySpace] at hsp
        simp [hne]
      have hstep : countTurnsAux (n + 1) (c :: rest)
          = match matchTurnAt (c :: rest) with
            | some remaining => 1 + countTurnsAux n remaining
            | none => countTurnsAux n rest := rfl
      rw [hstep, matchTurnAt_not_bracket c rest hcb]
      exact ih rest (fun x hx => h x (List.mem_cons_of_mem c hx))

theorem countTurns_of_blank (t : String) (h : isBlank t = true) : countTurns t = 0 := by
  unfold countTurns
  apply countTurnsAux_all_space
  intro c hc
  unfold isBlank at h
  exact List.all_eq_true.mp h c hc

theorem too_short_of_blank (t : String) (h : isBlank t = true) :
    is_conversation_too_short t 3 = true := by
  unfold is_conversation_too_short
  split
  · rfl
  · rw [countTurns_of_blank t h]
    decide

theorem foldr_concat_push (fl : List (List (Nat × QualityRecord)))
    (b : List (Nat × QualityRecord)) :
    (fl ++ [b]).foldr (fun x acc => x ++ acc) [] = fl.foldr (fun x acc => x ++ acc) [] ++ b := by
  induction fl with
  | nil => simp
  | cons x t ih => simp [ih]

theorem foldr_concat_seed (fl : List (List (Nat × QualityRecord)))
    (x : List (Nat × QualityRecord)) :
    fl.foldr (fun b acc => b ++ acc) x = fl.foldr (fun b acc => b ++ acc) [] ++ x := by
  induction fl with
  | nil => simp
  | cons y t ih => simp [ih]

theorem pendingAll_flush_state (s : BatchSt) (buf : List (Nat × QualityRecord))
    (sl tp ts : Nat) :
    pendingAll ⟨[], s.flushed ++ [buf], sl, tp, ts⟩ = writtenRecords s ++ buf := by
  show (s.flushed ++ [buf]).foldr (fun b acc => b ++ acc) [] ++ []
      = s.flushed.foldr (fun b acc => b ++ acc) [] ++ buf
  rw [foldr_concat_push, List.append_nil]

theorem pendingAll_keep_state (s : BatchSt) (buf : List (Nat × QualityRecord))
    (sl tp ts : Nat) :
    pendingAll ⟨buf, s.flushed, sl, tp, ts⟩ = writtenRecords s ++ buf := rfl

theorem processRow_pending (env : CheckEnv) (checkers : List String) (bs : Nat)
    (isLast : Bool) (s : BatchSt) (idx : Nat) (row : List String) :
    pendingAll (processRow env checkers bs isLast s idx row)
      = pendingAll s ++ rowContribution env checkers idx row := by
  unfold processRow rowContribution rowRecord
  by_cases h0 : row.headD "" = ""
  · rw [if_pos h0, if_pos h0]
    simp
  · rw [if_neg h0, if_neg h0]
    cases hres : (if is_conversation_too_short (row.headD "") then some no_conversation_result
        else execute_quality_check env (row.headD "") checkers) with
    | some rec =>
      dsimp only
      by_cases hf : (decide (bs ≤ (s.resultsBatch ++ [(idx, rec)]).length) || isLast) = true
      · rw [if_pos hf]
        rw [if_neg (by simp : ¬ ((s.resultsBatch ++ [(idx, rec)]).isEmpty = true))]
        rw [pendingAll_flush_state]
        unfold pendingAll
        rw [List.append_assoc]
      · rw [if_neg hf]
        rw [pendingAll_keep_state]
        unfold pendingAll
        rw [List.append_assoc]
    | none =>
      dsimp only
      by_cases hf : (decide (bs ≤ s.resultsBatch.length) || isLast) = true
      · rw [if_pos hf]
        by_cases he : s.resultsBatch.isEmpty = true
        · rw [if_pos he]
          rw [pendingAll_keep_state]
          unfold pendingAll
          simp
        · rw [if_neg he]
          rw [pendingAll_flush_state]
          unfold pendingAll
          simp
      · rw [if_neg hf]
        rw [pendingAll_keep_state]
        unfold pendingAll
        simp

theorem processRows_pending (envs : Nat → CheckEnv) (checkers : List String) (bs : Nat) :
    ∀ (rows : List (Nat × List String)) (i : Nat) (s : BatchSt),
    pendingAll (processRows envs checkers bs i rows s)
      = pendingAll s ++ expectedRecords envs checkers i rows := by
  intro rows
  induction rows with
  | nil => intro i s; simp [processRows, expectedRecords]
  | cons r rest ih =>
    intro i s
    show pendingAll (processRows envs checkers bs (i + 1) rest
        (processRow (envs i) checkers bs rest.isEmpty s r.1 r.2))
      = pendingAll s ++ expectedRecords envs checkers i (r :: rest)
    rw [ih (i + 1) (processRow (envs i) checkers bs rest.isEmpty s r.1 r.2)]
    rw [processRow_pending]
    show pendingAll s ++ rowContribution (envs i) checkers r.1 r.2
        ++ expectedRecords envs checkers (i + 1) rest
      = pendingAll s ++ (rowContribution (envs i) checkers r.1 r.2
        ++ expectedRecords envs checkers (i + 1) rest)
    rw [List.append_assoc]

theorem process_batch_pending (envs : Nat → CheckEnv) (checkers : List String) (bs : Nat)
    (targetRows : List (Nat × List String)) :
    pendingAll (process_batch envs checkers bs targetRows)
      = expectedRecords envs checkers 0 targetRows := by
  unfold process_batch
  rw [processRows_pending]
  rfl

theorem check_blank (env : CheckEnv) (textInput : String) (checkers : List String)
    (h : isBlank textInput = true) :
    check env textInput checkers = Except.ok none := by
  unfold check
  rw [h]
  rfl

theorem rowRecord_skip (env : CheckEnv) (checkers : List String) (row : List String)
    (h : row.headD "" = "") :
    rowRecord env checkers row = none := by
  unfold rowRecord
  rw [if_pos h]

theorem rowRecord_too_short (env : CheckEnv) (checkers : List String) (raw : String)
    (rest : List String) (h0 : raw ≠ "") (h1 : is_conversation_too_short raw 3 = true) :
    rowRecord env checkers (raw :: rest) = some no_conversation_result := by
  unfold rowRecord
  have hh : (raw :: rest).headD "" = raw := rfl
  rw [hh, if_neg h0, if_pos h1]

theorem rowRecord_check_error (env : CheckEnv) (checkers : List String) (raw : String)
    (rest : List String) (e : PyExn) (h0 : raw ≠ "")
    (h1 : is_conversation_too_short raw 3 = false)
    (h2 : check env raw checkers = Except.error e) :
    rowRecord env checkers (raw :: rest) = none := by
  unfold rowRecord execute_quality_check
  have hh : (raw :: rest).headD "" = raw := rfl
  rw [hh, if_neg h0, h1]
  rw [h2]
  rfl

theorem expectedRecords_append (envs : Nat → CheckEnv) (checkers : List String) :
    ∀ (rows1 rows2 : List (Nat × List String)) (i : Nat),
    expectedRecords envs checkers i (rows1 ++ rows2)
      = expectedRecords envs checkers i rows1
        ++ expectedRecords envs checkers (i + rows1.length) rows2 := by
  intro rows1
  induction rows1 with
  | nil => intro rows2 i; simp [expectedRecords]
  | cons r rest ih =>
    intro rows2 i
    show rowContribution (envs i) checkers r.1 r.2
        ++ expectedRecords envs checkers (i + 1) (rest ++ rows2)
      = rowContribution (envs i) checkers r.1 r.2
        ++ expectedRecords envs checkers (i + 1) rest
        ++ expectedRecords envs checkers (i + (r :: rest).length) rows2
    rw [ih rows2 (i + 1)]
    rw [List.append_assoc]
    have : i + 1 + rest.length = i + (r :: rest).length := by
      simp [List.length_cons]
      omega
    rw [this]

theorem mem_of_mem_dropLast {α : Type*} (l : List α) (x : α) (h : x ∈ l.dropLast) : x ∈ l := by
  induction l with
  | nil => simp at h
  | cons a t ih =>
    cases t with
    | nil => simp at h
    | cons b t2 =>
      rw [show (a :: b :: t2).dropLast = a :: (b :: t2).dropLast from rfl] at h
      cases h with
      | head => exact List.mem_cons_self _ _
      | tail _ hh => exact List.mem_cons_of_mem _ (ih hh)

theorem processRow_inv_step (env : CheckEnv) (checkers : List String) (bs : Nat)
    (hbs : 1 ≤ bs) (s : BatchSt) (idx : Nat) (row : List String)
    (h0 : ¬ row.headD "" = "")
    (hle : s.resultsBatch.length < bs)
    (hsl : s.sleeps = s.flushed.length)
    (hfull : ∀ b ∈ s.flushed, b ≠ [] ∧ b.length = bs) :
    (processRow env checkers bs false s idx row).resultsBatch.length < bs
    ∧ (processRow env checkers bs false s idx row).sleeps
        = (processRow env checkers bs false s idx row).flushed.length
    ∧ (∀ b ∈ (processRow env checkers bs false s idx row).flushed,
        b ≠ [] ∧ b.length = bs) := by
  unfold processRow
  rw [if_neg h0]
  cases hres : (if is_conversation_too_short (row.headD "") then some no_conversation_result
      else execute_quality_check env (row.headD "") checkers) with
  | some rec =>
    dsimp only
    by_cases hf : (decide (bs ≤ (s.resultsBatch ++ [(idx, rec)]).length) || false) = true
    · rw [if_pos hf]
      rw [if_neg (by simp : ¬ ((s.resultsBatch ++ [(idx, rec)]).isEmpty = true))]
      have hfa : bs ≤ s.resultsBatch.length + 1 := by simpa using hf
      have hlen2 : (s.resultsBatch ++ [(idx, rec)]).length = bs := by
        simp
        omega
      refine ⟨by simpa using hbs, by simp [hsl], ?_⟩
      intro b hb
      rcases List.mem_append.mp hb with hbl | hbr
      · exact hfull b hbl
      · have hb2 : b = s.resultsBatch ++ [(idx, rec)] := by simpa using hbr
        subst hb2
        exact ⟨by simp, hlen2⟩
    · rw [if_neg hf]
      have hfa : ¬ bs ≤ s.resultsBatch.length + 1 := by simpa using hf
      refine ⟨by simp; omega, hsl, hfull⟩
  | none =>
    dsimp only
    rw [if_neg (show ¬ ((decide (bs ≤ s.resultsBatch.length) || false) = true) by simp; omega)]
    exact ⟨hle, hsl, hfull⟩

theorem processRow_last (env : CheckEnv) (checkers : List String) (bs : Nat)
    (s : BatchSt) (idx : Nat) (row : List String)
    (h0 : ¬ row.headD "" = "")
    (hsl : s.sleeps = s.flushed.length)
    (hfull : ∀ b ∈ s.flushed, b ≠ [] ∧ b.length = bs) :
    (processRow env checkers bs true s idx row).resultsBatch = []
    ∧ (processRow env checkers bs true s idx row).sleeps
        = (processRow env checkers bs true s idx row).flushed.length
    ∧ (∀ b ∈ (processRow env checkers bs true s idx row).flushed, b ≠ [])
    ∧ (∀ b ∈ (processRow env checkers bs true s idx row).flushed.dropLast,
        b.length = bs) := by
  unfold processRow
  rw [if_neg h0]
  cases hres : (if is_conversation_too_short (row.headD "") then some no_conversation_result
      else execute_quality_check env (row.headD "") checkers) with
  | some rec =>
    dsimp only
    rw [if_pos (by simp :
      (decide (bs ≤ (s.resultsBatch ++ [(idx, rec)]).length) || true) = true)]
    rw [if_neg (by simp : ¬ ((s.resultsBatch ++ [(idx, rec)]).isEmpty = true))]
    refine ⟨rfl, by simp [hsl], ?_, ?_⟩
    · intro b hb
      rcases List.mem_append.mp hb with hbl | hbr
      · exact (hfull b hbl).1
      · have hb2 : b = s.resultsBatch ++ [(idx, rec)] := by simpa using hbr
        subst hb2
        simp
    · rw [List.dropLast_concat]
      intro b hb
      exact (hfull b hb).2
  | none =>
    dsimp only
    rw [if_pos (by simp : (decide (bs ≤ s.resultsBatch.length) || true) = true)]
    by_cases he : s.resultsBatch.isEmpty = true
    · rw [if_pos he]
      refine ⟨by simpa using he, hsl, fun b hb => (hfull b hb).1,
        fun b hb => (hfull b (mem_of_mem_dropLast _ b hb)).2⟩
    · rw [if_neg he]
      refine ⟨rfl, by simp [hsl], ?_, ?_⟩
      · intro b hb
        rcases List.mem_append.mp hb with hbl | hbr
        · exact (hfull b hbl).1
        · have hb2 : b = s.resultsBatch := by simpa using hbr
          subst hb2
          intro hc
          exact he (by simp [hc])
      · rw [List.dropLast_concat]
        intro b hb
        exact (hfull b hb).2

theorem processRows_flush_inv (envs : Nat → CheckEnv) (checkers : List String) (bs : Nat)
    (hbs : 1 ≤ bs) :
    ∀ (rows : List (Nat × List String)) (i : Nat) (s : BatchSt),
    (∀ r ∈ rows, ¬ r.2.headD "" = "") →
    s.resultsBatch.length < bs →
    s.sleeps = s.flushed.length →
    (∀ b ∈ s.flushed, b ≠ [] ∧ b.length = bs) →
    ((processRows envs checkers bs i rows s).sleeps
        = (processRows envs checkers bs i rows s).flushed.length
     ∧ (∀ b ∈ (processRows envs checkers bs i rows s).flushed, b ≠ [])
     ∧ (∀ b ∈ (processRows envs checkers bs i rows s).flushed.dropLast, b.length = bs)
     ∧ (rows ≠ [] → (processRows envs checkers bs i rows s).resultsBatch = [])) := by
  intro rows
  induction rows with
  | nil =>
    intro i s _ _ hsl hfull
    exact ⟨hsl, fun b hb => (hfull b hb).1,
      fun b hb => (hfull b (mem_of_mem_dropLast _ b hb)).2,
      fun hne => absurd rfl hne⟩
  | cons r rest ih =>
    intro i s h hle hsl hfull
    cases rest with
    | nil =>
      have hl := processRow_last (envs i) checkers bs s r.1 r.2
        (h r (List.mem_cons_self r [])) hsl hfull
      exact ⟨hl.2.1, hl.2.2.1, hl.2.2.2, fun _ => hl.1⟩
    | cons r2 rest2 =>
      have hstep := processRow_inv_step (envs i) checkers bs hbs s r.1 r.2
        (h r (List.mem_cons_self r (r2 :: rest2))) hle hsl hfull
      have hrec := ih (i + 1) (processRow (envs i) checkers bs false s r.1 r.2)
        (fun x hx => h x (List.mem_cons_of_mem r hx)) hstep.1 hstep.2.1 hstep.2.2
      exact ⟨hrec.1, hrec.2.1, hrec.2.2.1, fun _ => hrec.2.2.2 (by simp)⟩

theorem lookup_format_not_flag (parsed : List (String × String)) (text name k : String)
    (hk : k ≠ "ガチャ切りされた△") :
    List.lookup k (format_for_spreadsheet parsed text name)
      = List.lookup k (beforeGachakiri parsed name) := by
  unfold format_for_spreadsheet
  split
  · exact lookup_dictSet_ne _ _ _ _ hk
  · rfl

theorem format_of_not_detect (parsed : List (String × String)) (text name : String)
    (h : detect_gachakiri text = false) :
    format_for_spreadsheet parsed text name = beforeGachakiri parsed name := by
  unfold format_for_spreadsheet
  rw [h]
  simp

theorem lookup_flag_of_detect (parsed : List (String × String)) (text name : String)
    (h : detect_gachakiri text = true) :
    List.lookup "ガチャ切りされた△" (format_for_spreadsheet parsed text name)
      = some "問題あり" := by
  unfold format_for_spreadsheet
  rw [h]
  simp only [if_true]
  apply lookup_dictSet_self
  rw [map_fst_beforeGachakiri]
  exact flag_mem_headers

theorem lookup_beforeGachakiri_not_summary (parsed : List (String × String))
    (name k : String) (hk : k ≠ "報告まとめ") :
    List.lookup k (beforeGachakiri parsed name)
      = List.lookup k (afterChecker parsed name) := by
  unfold beforeGachakiri
  exact lookup_dictSet_ne _ _ _ _ hk

theorem lookup_summary_beforeGachakiri (parsed : List (String × String)) (name : String) :
    List.lookup "報告まとめ" (beforeGachakiri parsed name)
      = some (create_summary_report (afterChecker parsed name)) := by
  unfold beforeGachakiri
  apply lookup_dictSet_self
  rw [map_fst_afterChecker]
  exact summary_mem_headers

theorem lookup_afterChecker_not_agent (parsed : List (String × String))
    (name k : String) (hk : k ≠ "テレアポ担当者名") :
    List.lookup k (afterChecker parsed name) = List.lookup k (afterCopy parsed) := by
  unfold afterChecker
  split
  · exact lookup_dictSet_ne _ _ _ _ hk
  · rfl

theorem lookup_afterCopy_not_in_parsed (parsed : List (String × String)) (k : String)
    (h : k ∉ parsed.map Prod.fst) (hmem : k ∈ SPREADSHEET_HEADERS) :
    List.lookup k (afterCopy parsed) = some "" := by
  unfold afterCopy
  rw [lookup_copyParsed_not_mem parsed k h initRecord]
  exact lookup_initRecord k hmem

theorem filter_entries_eq_filter_keys (pred : String → Bool) (v : String) :
    ∀ r : QualityRecord, (r.map Prod.fst).Nodup →
    (r.filter (fun p => pred p.1 && (p.2 == v))).map Prod.fst
      = (r.map Prod.fst).filter (fun k => pred k && (List.lookup k r == some v)) := by
  intro r
  induction r with
  | nil => intro _; rfl
  | cons a t ih =>
    intro hnd
    obtain ⟨k0, v0⟩ := a
    simp only [List.map_cons, List.nodup_cons] at hnd
    have hre : (t.map Prod.fst).filter
          (fun k => pred k && (List.lookup k ((k0, v0) :: t) == some v))
        = (t.map Prod.fst).filter (fun k => pred k && (List.lookup k t == some v)) := by
      apply List.filter_congr
      intro k hk
      have hkne0 : k ≠ k0 := fun he => hnd.1 (he ▸ hk)
      have hkne : (k == k0) = false := by simp [hkne0]
      simp [List.lookup_cons, hkne]
    have hl0 : List.lookup k0 ((k0, v0) :: t) = some v0 := by simp [List.lookup_cons]
    by_cases hc : (pred k0 && (v0 == v)) = true
    · have hcond : (pred k0 && (List.lookup k0 ((k0, v0) :: t) == some v)) = true := by
        rw [hl0]
        exact hc
      rw [List.filter_cons_of_pos (by exact hc)]
      simp only [List.map_cons]
      rw [List.filter_cons_of_pos (by exact hcond), hre, ih hnd.2]
    · have hcond : ¬ (pred k0 && (List.lookup k0 ((k0, v0) :: t) == some v)) = true := by
        rw [hl0]
        exact hc
      rw [List.filter_cons_of_neg (by exact hc)]
      simp only [List.map_cons]
      rw [List.filter_cons_of_neg (by exact hcond), hre, ih hnd.2]

theorem create_summary_eq_headers_filter (r : QualityRecord)
    (hk : r.map Prod.fst = SPREADSHEET_HEADERS) :
    create_summary_report r =
      (if (SPREADSHEET_HEADERS.filter (fun h =>
            !(summaryExcludedKeys.contains h) && (List.lookup h r == some "問題あり"))).isEmpty
       then "特に問題は検出されませんでした"
       else "問題あり項目: " ++ String.intercalate ", "
          ((SPREADSHEET_HEADERS.filter (fun h =>
            !(summaryExcludedKeys.contains h)
              && (List.lookup h r == some "問題あり"))).take 5)) := by
  have hnd : (r.map Prod.fst).Nodup := by rw [hk]; exact headers_nodup
  have hitems :
      (((r.filter (fun p => p.2 == "問題あり")).map Prod.fst).filter
        (fun p => !(summaryExcludedKeys.contains p)))
      = SPREADSHEET_HEADERS.filter (fun h =>
          !(summaryExcludedKeys.contains h) && (List.lookup h r == some "問題あり")) := by
    rw [List.filter_map, List.filter_filter]
    rw [show (fun (p : String × String) =>
        ((fun q => !(summaryExcludedKeys.contains q)) ∘ Prod.fst) p && (p.2 == "問題あり"))
      = (fun p => !(summaryExcludedKeys.contains p.1) && (p.2 == "問題あり")) from rfl]
    rw [filter_entries_eq_filter_keys (fun q => !(summaryExcludedKeys.contains q))
      "問題あり" r hnd, hk]
  unfold create_summary_report
  dsimp only
  rw [← hitems]
  cases hitem : ((r.filter (fun p => p.2 == "問題あり")).map Prod.fst).filter
      (fun p => !(summaryExcludedKeys.contains p)) with
  | nil => simp
  | cons x xs =>
    have hp : (r.filter (fun p => p.2 == "問題あり")).map Prod.fst ≠ [] := by
      intro hnil
      rw [hnil] at hitem
      simp at hitem
    have hp2 : ((r.filter (fun p => p.2 == "問題あり")).map Prod.fst).isEmpty = false := by
      cases hq : ((r.filter (fun p => p.2 == "問題あり")).map Prod.fst).isEmpty
      · rfl
      · exact absurd (by simpa using hq) hp
    simp [hp2]

theorem summary_agrees_with_spec (parsed : List (String × String)) (text name : String) :
    create_summary_report (afterChecker parsed name)
      = summarySpec (format_for_spreadsheet parsed text name) := by
  rw [create_summary_eq_headers_filter (afterChecker parsed name)
    (map_fst_afterChecker parsed name)]
  unfold summarySpec
  dsimp only
  have hfe : SPREADSHEET_HEADERS.filter (fun h => !(summaryExcludedKeys.contains h)
        && (List.lookup h (afterChecker parsed name) == some "問題あり"))
      = SPREADSHEET_HEADERS.filter (fun h => !(summaryExcludedKeys.contains h)
        && (List.lookup h (format_for_spreadsheet parsed text name) == some "問題あり")) := by
    apply List.filter_congr
    intro h _
    cases hcont : summaryExcludedKeys.contains h with
    | true => rfl
    | false =>
      have hcont2 := hcont
      simp [summaryExcludedKeys] at hcont2
      obtain ⟨h1, h2, h3⟩ := hcont2
      rw [lookup_format_not_flag parsed text name h h3,
        lookup_beforeGachakiri_not_summary parsed name h h1]
  rw [hfe]

theorem check_ok_keys (env : CheckEnv) (t : String) (cs : List String) (r : QualityRecord)
    (h : check env t cs = Except.ok (some r)) :
    r.map Prod.fst = SPREADSHEET_HEADERS := by
  unfold check at h
  by_cases hb : isBlank t = true
  · rw [if_pos hb] at h
    exact absurd h (by simp)
  · rw [if_neg hb] at h
    cases henv : env.apiResult with
    | error e =>
      rw [henv] at h
      exact absurd h (by simp)
    | ok raw =>
      rw [henv] at h
      dsimp only at h
      by_cases hr : (decide (raw = "") || decide (raw = "チェック失敗")) = true
      · rw [if_pos hr] at h
        exact absurd h (by simp)
      · rw [if_neg hr] at h
        cases hp : env.parse raw with
        | decodeErr m =>
          rw [hp] at h
          exact absurd h (by simp)
        | nonObj =>
          rw [hp] at h
          exact absurd h (by simp)
        | obj parsed =>
          rw [hp] at h
          simp only [Except.ok.injEq, Option.some.injEq] at h
          rw [← h]
          exact map_fst_format parsed t _

theorem rowRecord_error_general (env : CheckEnv) (cs : List String) (row : List String)
    (e : PyExn) (h0 : ¬ row.headD "" = "")
    (h1 : is_conversation_too_short (row.headD "") 3 = false)
    (h2 : check env (row.headD "") cs = Except.error e) :
    rowRecord env cs row = none := by
  unfold rowRecord execute_quality_check
  rw [if_neg h0, h1]
  simp only [Bool.false_eq_true, if_false]
  rw [h2]

/-- C1: every record the pipeline produces — the formatted model response
(`_format_for_spreadsheet`), the error fallback (`_create_error_fallback`)
and the short-conversation substitute (`_create_no_conversation_result`)
— has key set (and order) exactly `SPREADSHEET_HEADERS`: every header is
present, header keys absent from the parsed response keep the empty
string after projection, and no key outside the header list survives. -/
theorem c1_record_keys_complete (parsed : List (String × String)) (text name msg : String) :
    (format_for_spreadsheet parsed text name).map Prod.fst = SPREADSHEET_HEADERS
    ∧ (create_error_fallback msg).map Prod.fst = SPREADSHEET_HEADERS
    ∧ no_conversation_result.map Prod.fst = SPREADSHEET_HEADERS
    ∧ (∀ h, h ∈ SPREADSHEET_HEADERS → h ∉ parsed.map Prod.fst →
        List.lookup h (afterCopy parsed) = some "") := by
  refine ⟨map_fst_format parsed text name, map_fst_error_fallback msg,
    map_fst_no_conversation, ?_⟩
  intro h hmem hnot
  exact lookup_afterCopy_not_in_parsed parsed h hnot hmem

theorem c1_record_keys_complete_witness :
    List.lookup "呼び方"
      (afterCopy [("社名や担当者名を名乗らない", "問題あり")]) = some "" :=
  (c1_record_keys_complete [("社名や担当者名を名乗らない", "問題あり")] "" "" "").2.2.2
    "呼び方" (by decide) (by decide)

/-- C3: the hung-up heuristic gives the normal-closing patterns
precedence: when a polite sign-off pattern occurs in the transcript,
`_detect_gachakiri` returns false, the hung-up-flag overwrite does not
happen (the record equals the pre-heuristic stage, and the flag stays the
empty string when the model response did not set it), and when no
normal-closing pattern occurs the detection equals the abrupt-pattern
match, whose positive case sets the flag to 問題あり. -/
theorem c3_normal_end_precedence (text : String) (parsed : List (String × String))
    (name : String) :
    (matchesNormalEnd text = true →
      detect_gachakiri text = false
      ∧ format_for_spreadsheet parsed text name = beforeGachakiri parsed name
      ∧ ("ガチャ切りされた△" ∉ parsed.map Prod.fst →
          List.lookup "ガチャ切りされた△" (format_for_spreadsheet parsed text name)
            = some ""))
    ∧ (matchesNormalEnd text = false →
      detect_gachakiri text = matchesGachakiri text
      ∧ (matchesGachakiri text = true →
          List.lookup "ガチャ切りされた△" (format_for_spreadsheet parsed text name)
            = some "問題あり")) := by
  constructor
  · intro hn
    have hd : detect_gachakiri text = false := by
      unfold detect_gachakiri
      rw [hn]
      rfl
    refine ⟨hd, format_of_not_detect parsed text name hd, ?_⟩
    intro hnp
    rw [format_of_not_detect parsed text name hd,
      lookup_beforeGachakiri_not_summary parsed name _ (by decide),
      lookup_afterChecker_not_agent parsed name _ (by decide)]
    exact lookup_afterCopy_not_in_parsed parsed _ hnp flag_mem_headers
  · intro hn
    have hd : detect_gachakiri text = matchesGachakiri text := by
      unfold detect_gachakiri
      rw [hn]
      rfl
    refine ⟨hd, ?_⟩
    intro hg
    exact lookup_flag_of_detect parsed text name (hd.trans hg)

theorem c3_normal_end_precedence_witness :
    detect_gachakiri "ガチャ切りされましたが、ありがとうございました" = false
    ∧ List.lookup "ガチャ切りされた△"
        (format_for_spreadsheet [] "ガチャ切りされましたが、ありがとうございました" "")
        = some ""
    ∧ List.lookup "ガチャ切りされた△"
        (format_for_spreadsheet [] "ガチャ切り" "") = some "問題あり" :=
  ⟨((c3_normal_end_precedence "ガチャ切りされましたが、ありがとうございました" [] "").1
      (by decide)).1,
   ((c3_normal_end_precedence "ガチャ切りされましたが、ありがとうございました" [] "").1
      (by decide)).2.2 (by decide),
   ((c3_normal_end_precedence "ガチャ切り" [] "").2 (by decide)).2 (by decide)⟩

/-- C10: the hung-up-flag heuristic step of `_format_for_spreadsheet`
modifies only the ガチャ切りされた△ field and only in one direction: when
`_detect_gachakiri` is true that field becomes 問題あり and every other
key keeps its pre-heuristic value; when it is false the record is
returned unchanged (the flag keeps the projected value and is never
cleared). -/
theorem c10_gachakiri_frame (parsed : List (String × String)) (text name : String) :
    (detect_gachakiri text = true →
      List.lookup "ガチャ切りされた△" (format_for_spreadsheet parsed text name)
        = some "問題あり"
      ∧ (∀ k, k ≠ "ガチャ切りされた△" →
          List.lookup k (format_for_spreadsheet parsed text name)
            = List.lookup k (beforeGachakiri parsed name)))
    ∧ (detect_gachakiri text = false →
      format_for_spreadsheet parsed text name = beforeGachakiri parsed name) := by
  constructor
  · intro hd
    refine ⟨lookup_flag_of_detect parsed text name hd, ?_⟩
    intro k hk
    exact lookup_format_not_flag parsed text name k hk
  · intro hd
    exact format_of_not_detect parsed text name hd

theorem c10_gachakiri_frame_witness :
    List.lookup "ガチャ切りされた△" (format_for_spreadsheet [] "ガチャ切り" "")
      = some "問題あり"
    ∧ List.lookup "呼び方" (format_for_spreadsheet [] "ガチャ切り" "")
      = List.lookup "呼び方" (beforeGachakiri [] "")
    ∧ format_for_spreadsheet [] "こんにちは" "" = beforeGachakiri [] "" :=
  ⟨((c10_gachakiri_frame [] "ガチャ切り" "").1 (by decide)).1,
   ((c10_gachakiri_frame [] "ガチャ切り" "").1 (by decide)).2 "呼び方" (by decide),
   (c10_gachakiri_frame [] "こんにちは" "").2 (by decide)⟩

/-- C5: the summary field of every formatted record is computed without a
model call and refines the spec's description: the 報告まとめ value equals
`summarySpec` of the final record — the header keys (excluding the
summary, agent-name and hung-up keys, in header order) whose verdict is
問題あり, first five joined by comma after the marker, or the fixed
no-issues text. The second conjunct checks the spec's 7-issue instance:
exactly the first five issue keys in header order are listed. -/
theorem c5_summary_refines_spec (parsed : List (String × String)) (text name : String) :
    List.lookup "報告まとめ" (format_for_spreadsheet parsed text name)
      = some (summarySpec (format_for_spreadsheet parsed text name))
    ∧ List.lookup "報告まとめ" (format_for_spreadsheet
        [("嘘・真偽不明", "問題あり"), ("通報する", "問題あり"), ("営業お断り", "問題あり"),
         ("怒らせた", "問題あり"), ("ロングコール", "問題あり"), ("呼び方", "問題あり"),
         ("情報漏洩", "問題あり")] "" "")
      = some "問題あり項目: 情報漏洩, 呼び方, ロングコール, 怒らせた, 通報する" := by
  constructor
  · rw [lookup_format_not_flag parsed text name _ (by decide),
      lookup_summary_beforeGachakiri parsed name,
      summary_agrees_with_spec parsed text name]
  · decide

/-- C9: `run_check` is total with respect to pipeline failures: its
result always carries the full header key set; on empty or
whitespace-only input it is the error fallback for the empty-input
message, on any exception from the check pipeline it is the error
fallback for that exception's message; and the error fallback has
agent-name 処理エラー, summary 処理エラー: followed by the message, and
every other header empty. -/
theorem c9_run_check_total_fallback (env : CheckEnv) (t : String) (cs : List String) :
    (run_check env t cs).map Prod.fst = SPREADSHEET_HEADERS
    ∧ (isBlank t = true → run_check env t cs = create_error_fallback "入力テキストが空です。")
    ∧ (∀ e, isBlank t = false → check env t cs = Except.error e →
        run_check env t cs = create_error_fallback e.msg)
    ∧ (∀ m, List.lookup "テレアポ担当者名" (create_error_fallback m) = some "処理エラー"
        ∧ List.lookup "報告まとめ" (create_error_fallback m) = some ("処理エラー: " ++ m)
        ∧ (∀ h, h ∈ SPREADSHEET_HEADERS → h ≠ "テレアポ担当者名" → h ≠ "報告まとめ" →
            List.lookup h (create_error_fallback m) = some "")) := by
  refine ⟨?_, ?_, ?_, ?_⟩
  · unfold run_check
    by_cases hb : isBlank t = true
    · rw [if_pos hb]
      exact map_fst_error_fallback _
    · rw [if_neg hb]
      cases hc : check env t cs with
      | error e => exact map_fst_error_fallback _
      | ok o =>
        cases o with
        | none =>
          exact absurd hc (check_ne_ok_none env t cs (Bool.not_eq_true _ ▸ hb))
        | some r => exact check_ok_keys env t cs r hc
  · intro hb
    unfold run_check
    rw [if_pos hb]
  · intro e hb hc
    unfold run_check
    rw [if_neg (by rw [hb]; exact Bool.false_ne_true), hc]
  · intro m
    have hagent : List.lookup "テレアポ担当者名" (create_error_fallback m)
        = some "処理エラー" := by
      unfold create_error_fallback
      rw [lookup_dictSet_ne _ _ _ _ (by decide)]
      apply lookup_dictSet_self
      rw [map_fst_initRecord]
      exact agent_mem_headers
    have hsum : List.lookup "報告まとめ" (create_error_fallback m)
        = some ("処理エラー: " ++ m) := by
      unfold create_error_fallback
      apply lookup_dictSet_self
      rw [map_fst_dictSet_of_mem _ _ _ (by rw [map_fst_initRecord]; exact agent_mem_headers),
        map_fst_initRecord]
      exact summary_mem_headers
    refine ⟨hagent, hsum, ?_⟩
    intro h hmem h1 h2
    unfold create_error_fallback
    rw [lookup_dictSet_ne _ _ _ _ h2, lookup_dictSet_ne _ _ _ _ h1]
    exact lookup_initRecord h hmem

theorem c9_run_check_total_fallback_witness :
    run_check envApiFail "もしもし" [] = create_error_fallback "接続エラー"
    ∧ List.lookup "報告まとめ" (create_error_fallback "接続エラー")
        = some "処理エラー: 接続エラー"
    ∧ List.lookup "呼び方" (create_error_fallback "接続エラー") = some "" :=
  ⟨(c9_run_check_total_fallback envApiFail "もしもし" []).2.2.1
      ⟨PyExnClass.apiErrorCls, "接続エラー"⟩ (by decide) rfl,
   ((c9_run_check_total_fallback envApiFail "もしもし" []).2.2.2 "接続エラー").2.1,
   ((c9_run_check_total_fallback envApiFail "もしもし" []).2.2.2 "接続エラー").2.2
     "呼び方" (by decide) (by decide) (by decide)⟩

/-- C8: `check` on empty or whitespace-only input returns `None` without
raising and without consulting any external port (the result is the same
for every environment, as the statement's universal `env` shows); but in
the batch path an empty transcript is skipped by `continue` with no
record, and a whitespace-only transcript never reaches `check` at all —
the short-conversation gate substitutes the no-conversation record, so
the row does produce a record. -/
theorem c8_blank_input_returns_none (env : CheckEnv) (cs : List String) (t : String)
    (rest : List String) :
    (isBlank t = true → check env t cs = Except.ok none)
    ∧ rowRecord env cs ("" :: rest) = none
    ∧ (isBlank t = true → t ≠ "" →
        rowRecord env cs (t :: rest) = some no_conversation_result) := by
  refine ⟨check_blank env t cs, rowRecord_skip env cs ("" :: rest) rfl, ?_⟩
  intro hb hne
  exact rowRecord_too_short env cs t rest hne (too_short_of_blank t hb)

theorem c8_blank_input_returns_none_witness :
    check envApiFail " " [] = Except.ok none
    ∧ rowRecord envApiFail [] [" "] = some no_conversation_result :=
  ⟨(c8_blank_input_returns_none envApiFail [] " " []).1 (by decide),
   (c8_blank_input_returns_none envApiFail [] " " []).2.2 (by decide) (by decide)⟩

theorem c8_counterexample :
    (process_batch (fun _ => envApiFail) [] 5 [(3, [" "])]).flushed
      = [[(3, no_conversation_result)]] := by
  decide

theorem check_eval_empty (env : CheckEnv) (t : String) (cs : List String) (raw : String)
    (hb : isBlank t = false) (hr : env.apiResult = Except.ok raw)
    (he : (decide (raw = "") || decide (raw = "チェック失敗")) = true) :
    check env t cs
      = Except.error ⟨PyExnClass.exceptionCls, "AIからの応答が空か、失敗しました。"⟩ := by
  unfold check
  rw [hb]
  simp only [Bool.false_eq_true, if_false]
  rw [hr]
  dsimp only
  rw [if_pos he]

theorem check_eval_parse (env : CheckEnv) (t : String) (cs : List String) (raw : String)
    (hb : isBlank t = false) (hr : env.apiResult = Except.ok raw)
    (hne : ¬ (decide (raw = "") || decide (raw = "チェック失敗")) = true) :
    check env t cs = (match env.parse raw with
      | JsonOutcome.decodeErr m => Except.error ⟨PyExnClass.exceptionCls,
          "JSON解析エラー: " ++ m ++ "。応答: " ++ raw⟩
      | JsonOutcome.nonObj => Except.error ⟨PyExnClass.attributeErrorCls,
          "オブジェクトに items 属性がありません"⟩
      | JsonOutcome.obj parsed => Except.ok (some (format_for_spreadsheet parsed t
          (if cs.isEmpty then "" else env.nameResult)))) := by
  unfold check
  rw [hb]
  simp only [Bool.false_eq_true, if_false]
  rw [hr]
  dsimp only
  rw [if_neg hne]

/-- C7: corrected failure-mode contract of `QualityChecker.check`. Given
nonblank input and a completion call that itself returned, `check` raises
exactly when the response is empty, is the failure marker チェック失敗, or
is not parseable as a JSON object; the JSON-decode failure raises a
generic `Exception` whose message carries the raw response text; a
completion-call exception propagates to the caller unchanged. The raised
error is never of the repository's `ProcessingError` class — the source
raises the built-in `Exception` (and `AttributeError` for a parsed
non-object), which is what the correction records. -/
theorem c7_check_failure_modes (env : CheckEnv) (t : String) (cs : List String)
    (hb : isBlank t = false) :
    (∀ e, env.apiResult = Except.error e → check env t cs = Except.error e)
    ∧ (∀ raw, env.apiResult = Except.ok raw →
        (((∃ e, check env t cs = Except.error e) ↔
           (raw = "" ∨ raw = "チェック失敗"
             ∨ ∀ fields, env.parse raw ≠ JsonOutcome.obj fields))
         ∧ (∀ e, check env t cs = Except.error e → e.cls ≠ PyExnClass.processingErrorCls)
         ∧ (∀ m, env.parse raw = JsonOutcome.decodeErr m → raw ≠ "" → raw ≠ "チェック失敗" →
             check env t cs = Except.error ⟨PyExnClass.exceptionCls,
               "JSON解析エラー: " ++ m ++ "。応答: " ++ raw⟩))) := by
  constructor
  · intro e he
    unfold check
    rw [hb]
    simp only [Bool.false_eq_true, if_false]
    rw [he]
  · intro raw hraw
    by_cases hre : (decide (raw = "") || decide (raw = "チェック失敗")) = true
    · have hc := check_eval_empty env t cs raw hb hraw hre
      have hdis : raw = "" ∨ raw = "チェック失敗" := by
        rcases Bool.or_eq_true_iff.mp hre with h | h
        · exact Or.inl (of_decide_eq_true h)
        · exact Or.inr (of_decide_eq_true h)
      refine ⟨⟨fun _ => Or.elim hdis Or.inl (fun h => Or.inr (Or.inl h)),
          fun _ => ⟨_, hc⟩⟩, ?_, ?_⟩
      · intro e he
        rw [hc] at he
        have : e = ⟨PyExnClass.exceptionCls, "AIからの応答が空か、失敗しました。"⟩ :=
          (Except.error.injEq _ _).mp he.symm
        rw [this]
        decide
      · intro m _ h1 h2
        exact absurd hdis (by simp [h1, h2])
    · have hc := check_eval_parse env t cs raw hb hraw hre
      have hnr : ¬ (raw = "" ∨ raw = "チェック失敗") := by
        intro hd
        apply hre
        rcases hd with h | h
        · simp [h]
        · simp [h]
      refine ⟨⟨?_, ?_⟩, ?_, ?_⟩
      · rintro ⟨e, he⟩
        rw [hc] at he
        cases hp : env.parse raw with
        | obj parsed =>
          rw [hp] at he
          exact absurd he (by simp)
        | nonObj =>
          refine Or.inr (Or.inr ?_)
          intro fields
          exact fun hq => JsonOutcome.noConfusion hq
        | decodeErr m =>
          refine Or.inr (Or.inr ?_)
          intro fields
          exact fun hq => JsonOutcome.noConfusion hq
      · intro hd
        rcases hd with h | h | h
        · exact absurd (Or.inl h) hnr
        · exact absurd (Or.inr h) hnr
        · rw [hc]
          cases hp : env.parse raw with
          | obj parsed => exact absurd (hp ▸ rfl) (h parsed)
          | nonObj => exact ⟨_, rfl⟩
          | decodeErr m => exact ⟨_, rfl⟩
      · intro e he
        rw [hc] at he
        cases hp : env.parse raw with
        | obj parsed =>
          rw [hp] at he
          exact absurd he (by simp)
        | nonObj =>
          rw [hp] at he
          have : e = ⟨PyExnClass.attributeErrorCls, "オブジェクトに items 属性がありません"⟩ :=
            (Except.error.injEq _ _).mp he.symm
          rw [this]
          decide
        | decodeErr m =>
          rw [hp] at he
          have : e = ⟨PyExnClass.exceptionCls, "JSON解析エラー: " ++ m ++ "。応答: " ++ raw⟩ :=
            (Except.error.injEq _ _).mp he.symm
          rw [this]
          exact fun hq => PyExnClass.noConfusion hq
      · intro m hm _ _
        rw [hc, hm]

theorem c7_counterexample :
    check envEmptyResponse "もしもし" []
      = Except.error ⟨PyExnClass.exceptionCls, "AIからの応答が空か、失敗しました。"⟩
    ∧ PyExnClass.exceptionCls ≠ PyExnClass.processingErrorCls :=
  ⟨rfl, by decide⟩

theorem c7_check_failure_modes_witness :
    check envDecodeErr "もしもし" []
      = Except.error ⟨PyExnClass.exceptionCls,
          "JSON解析エラー: Expecting value。応答: 応答テキスト"⟩ :=
  ((c7_check_failure_modes envDecodeErr "もしもし" [] (by decide)).2 "応答テキスト"
    rfl).2.2 "Expecting value" rfl (by decide) (by decide)

/-- C2: corrected batch failure isolation. When processing of one row
raises inside `check`, the `safe_execute` decorator swallows the
exception and the row contributes no record at all — no failure-sentinel
record is buffered or written for it — while every other row (before and
after) is processed normally; with nonempty transcripts throughout and a
positive batch size the surviving records are all flushed by the end of
the run. -/
theorem c2_row_failure_isolated (envs : Nat → CheckEnv) (checkers : List String)
    (bs : Nat) (pre post : List (Nat × List String)) (idx : Nat) (row : List String)
    (e : PyExn) (hbs : 1 ≤ bs)
    (hall : ∀ r ∈ pre ++ (idx, row) :: post, ¬ r.2.headD "" = "")
    (hshort : is_conversation_too_short (row.headD "") 3 = false)
    (hfail : check (envs pre.length) (row.headD "") checkers = Except.error e) :
    writtenRecords (process_batch envs checkers bs (pre ++ (idx, row) :: post))
        = expectedRecords envs checkers 0 pre
          ++ expectedRecords envs checkers (pre.length + 1) post
    ∧ (process_batch envs checkers bs (pre ++ (idx, row) :: post)).resultsBatch = [] := by
  have hmid : ¬ row.headD "" = "" :=
    hall (idx, row) (List.mem_append.mpr (Or.inr (List.mem_cons_self _ _)))
  have hbuf : (process_batch envs checkers bs (pre ++ (idx, row) :: post)).resultsBatch
      = [] := by
    have hinv := processRows_flush_inv envs checkers bs hbs (pre ++ (idx, row) :: post) 0
      initSt hall hbs rfl (by intro b hb; simp [initSt] at hb)
    exact hinv.2.2.2 (by simp)
  refine ⟨?_, hbuf⟩
  have hpend := process_batch_pending envs checkers bs (pre ++ (idx, row) :: post)
  rw [expectedRecords_append envs checkers pre ((idx, row) :: post) 0] at hpend
  have hrow : rowContribution (envs (0 + pre.length)) checkers idx row = [] := by
    unfold rowContribution
    rw [Nat.zero_add,
      rowRecord_error_general (envs pre.length) checkers row e hmid hshort hfail]
  have hexp : expectedRecords envs checkers (0 + pre.length) ((idx, row) :: post)
      = expectedRecords envs checkers (pre.length + 1) post := by
    show rowContribution (envs (0 + pre.length)) checkers idx row
        ++ expectedRecords envs checkers (0 + pre.length + 1) post
      = expectedRecords envs checkers (pre.length + 1) post
    rw [hrow, Nat.zero_add, List.nil_append]
  rw [hexp] at hpend
  unfold pendingAll at hpend
  rw [hbuf, List.append_nil] at hpend
  exact hpend

theorem c2_row_failure_isolated_witness :
    writtenRecords (process_batch (fun _ => envApiFail) [] 1
        [(1, ["x"]), (5, [threeTurnTranscript]), (6, ["y"])])
      = expectedRecords (fun _ => envApiFail) [] 0 [(1, ["x"])]
        ++ expectedRecords (fun _ => envApiFail) [] 2 [(6, ["y"])] :=
  (c2_row_failure_isolated (fun _ => envApiFail) [] 1 [(1, ["x"])] [(6, ["y"])]
    5 [threeTurnTranscript] ⟨PyExnClass.apiErrorCls, "接続エラー"⟩
    (by decide) (by decide) (by decide) rfl).1

theorem c2_counterexample :
    pendingAll (process_batch (fun _ => envApiFail) [] 1
        [(5, [threeTurnTranscript]), (6, ["x"])])
      = [(6, no_conversation_result)] := by
  decide

/-- C4: corrected short-conversation gate. The gate returns true on the
empty transcript and on every transcript with fewer than three labeled
turns; for a nonempty too-short transcript the batch row yields the
substituted record — independent of the completion environment, so the
rubric call never happens — whose headers are all empty except 報告まとめ
= 会話記録なし and whose key set is exactly the header list. An
empty-transcript row, however, is skipped by `continue` before the gate
is consulted and yields no record at all. -/
theorem c4_short_conversation_gate (raw : String) (env : CheckEnv)
    (cs : List String) (rest : List String) :
    is_conversation_too_short "" 3 = true
    ∧ (countTurns raw < 3 → is_conversation_too_short raw 3 = true)
    ∧ (raw ≠ "" → is_conversation_too_short raw 3 = true →
        rowRecord env cs (raw :: rest) = some no_conversation_result)
    ∧ rowRecord env cs ("" :: rest) = none
    ∧ List.lookup "報告まとめ" no_conversation_result = some "会話記録なし"
    ∧ (∀ h, h ∈ SPREADSHEET_HEADERS → h ≠ "報告まとめ" →
        List.lookup h no_conversation_result = some "")
    ∧ no_conversation_result.map Prod.fst = SPREADSHEET_HEADERS := by
  refine ⟨rfl, ?_, ?_, rowRecord_skip env cs ("" :: rest) rfl, ?_, ?_,
    map_fst_no_conversation⟩
  · intro hlt
    unfold is_conversation_too_short
    split
    · rfl
    · simpa using hlt
  · intro hne hshort
    exact rowRecord_too_short env cs raw rest hne hshort
  · unfold no_conversation_result
    apply lookup_dictSet_self
    rw [map_fst_initRecord]
    exact summary_mem_headers
  · intro h hmem hne
    unfold no_conversation_result
    rw [lookup_dictSet_ne _ _ _ _ hne]
    exact lookup_initRecord h hmem

theorem c4_short_conversation_gate_witness :
    is_conversation_too_short "x" 3 = true
    ∧ rowRecord envApiFail [] ["x"] = some no_conversation_result
    ∧ List.lookup "呼び方" no_conversation_result = some "" :=
  ⟨(c4_short_conversation_gate "x" envApiFail [] []).2.1 (by decide),
   (c4_short_conversation_gate "x" envApiFail [] []).2.2.1 (by decide) (by decide),
   (c4_short_conversation_gate "x" envApiFail [] []).2.2.2.2.2.1
     "呼び方" (by decide) (by decide)⟩

theorem c4_counterexample :
    is_conversation_too_short "" 3 = true
    ∧ pendingAll (process_batch (fun _ => envApiFail) [] 5 [(7, [""])]) = []
    ∧ (process_batch (fun _ => envApiFail) [] 5 [(7, [""])]).totalProcessed = 0 := by
  refine ⟨rfl, ?_, ?_⟩ <;> decide

/-- C6: corrected flush discipline. Provided no target row has an empty
transcript (an empty final row is skipped by `continue` and would leave
the buffer unwritten — see the counterexample) and the batch size is
positive, the run flushes exactly at the batch-size boundary or at the
final row: the final buffer is empty, the store receives exactly the
records the rows produce, every flushed batch is nonempty and every
non-final one has exactly `batch_size` records, and the orchestrator
sleeps once after each flush. -/
theorem c6_flush_discipline (envs : Nat → CheckEnv) (checkers : List String) (bs : Nat)
    (rows : List (Nat × List String)) (hbs : 1 ≤ bs) (hne : rows ≠ [])
    (hall : ∀ r ∈ rows, ¬ r.2.headD "" = "") :
    (process_batch envs checkers bs rows).resultsBatch = []
    ∧ writtenRecords (process_batch envs checkers bs rows)
        = expectedRecords envs checkers 0 rows
    ∧ (process_batch envs checkers bs rows).sleeps
        = (process_batch envs checkers bs rows).flushed.length
    ∧ (∀ b ∈ (process_batch envs checkers bs rows).flushed, b ≠ [])
    ∧ (∀ b ∈ (process_batch envs checkers bs rows).flushed.dropLast, b.length = bs) := by
  have hinv := processRows_flush_inv envs checkers bs hbs rows 0 initSt hall hbs rfl
    (by intro b hb; simp [initSt] at hb)
  have hbuf : (process_batch envs checkers bs rows).resultsBatch = [] :=
    hinv.2.2.2 hne
  have hwr : writtenRecords (process_batch envs checkers bs rows)
      = expectedRecords envs checkers 0 rows := by
    have hpend := process_batch_pending envs checkers bs rows
    unfold pendingAll at hpend
    rw [hbuf, List.append_nil] at hpend
    exact hpend
  exact ⟨hbuf, hwr, hinv.1, hinv.2.1, hinv.2.2.1⟩

theorem c6_flush_discipline_witness :
    (process_batch (fun _ => envApiFail) [] 1 [(1, ["x"]), (2, ["y"])]).resultsBatch = []
    ∧ writtenRecords (process_batch (fun _ => envApiFail) [] 1 [(1, ["x"]), (2, ["y"])])
        = expectedRecords (fun _ => envApiFail) [] 0 [(1, ["x"]), (2, ["y"])]
    ∧ (process_batch (fun _ => envApiFail) [] 1 [(1, ["x"]), (2, ["y"])]).sleeps
        = (process_batch (fun _ => envApiFail) [] 1 [(1, ["x"]), (2, ["y"])]).flushed.length :=
  ⟨(c6_flush_discipline (fun _ => envApiFail) [] 1 [(1, ["x"]), (2, ["y"])]
      (by decide) (by decide) (by decide)).1,
   (c6_flush_discipline (fun _ => envApiFail) [] 1 [(1, ["x"]), (2, ["y"])]
      (by decide) (by decide) (by decide)).2.1,
   (c6_flush_discipline (fun _ => envApiFail) [] 1 [(1, ["x"]), (2, ["y"])]
      (by decide) (by decide) (by decide)).2.2.1⟩

theorem c6_counterexample :
    (process_batch (fun _ => envApiFail) [] 5 [(1, ["x"]), (2, [""])]).resultsBatch
      = [(1, no_conversation_result)]
    ∧ (process_batch (fun _ => envApiFail) [] 5 [(1, ["x"]), (2, [""])]).flushed = []
    ∧ (process_batch (fun _ => envApiFail) [] 5 [(1, ["x"]), (2, [""])]).sleeps = 0 := by
  refine ⟨?_, ?_, ?_⟩ <;> decide
